import Mathlib

/-!
Shallow embedding of the caldavllm_bot core (message batching, event
confirmation, quota tracking) and proofs of the specification claims.

The definitions below are translated from the Python sources:
`src/users.py` (UserManager), `src/bot.py` (MessageBatcher, CalendarBot).
Python dicts are modelled as association lists, `asyncio` timers as
explicit timer identifiers in a live-set, and the single-threaded
cooperative scheduling as an explicit event trace.

Note on string literals: the repository file `src/bot.py` stores its
Russian UI strings in a mojibake form (UTF-8 bytes that were re-decoded
through a legacy codepage and re-encoded); the literals here reproduce the
file's exact character content via unicode escapes.
-/

namespace CaldavBot

/-! ## Quota tracker (`src/users.py`, UserManager)

`daily_token_usage` is a `dict[int, tuple[date, int]]`; we model it as an
association list from user id to `(day, tokens)`, days being integers
ordered like `datetime.date`.  `date.today()` and
`self.daily_token_limit` become explicit parameters `today` and `limit`.
Every method is embedded as a state transformer returning its result
together with the (possibly updated) map, so that absence of mutation is
visible in the embedding. -/

abbrev QuotaMap := List (Int × Int × Int)

def lookupQ (uid : Int) : QuotaMap → Option (Int × Int)
  | [] => none
  | (k, v) :: rest => if k = uid then some v else lookupQ uid rest

def setQ (uid : Int) (v : Int × Int) (m : QuotaMap) : QuotaMap :=
  (uid, v) :: m.filter (fun p => p.1 ≠ uid)

/-- `UserManager.check_token_limit` (src/users.py lines 126-140). -/
def check_token_limit (today limit : Int) (m : QuotaMap) (uid : Int) :
    Bool × QuotaMap :=
  match lookupQ uid m with
  | none => (true, m)
  | some (last_date, tokens) =>
    if last_date < today then (true, setQ uid (today, 0) m)
    else (decide (tokens < limit), m)

/-- `UserManager.get_remaining_tokens` (src/users.py lines 142-154).
The method performs no assignment, so the returned map is the input map. -/
def get_remaining_tokens (today limit : Int) (m : QuotaMap) (uid : Int) :
    Int × QuotaMap :=
  match lookupQ uid m with
  | none => (limit, m)
  | some (last_date, tokens) =>
    if last_date < today then (limit, m)
    else (max 0 (limit - tokens), m)

/-- `UserManager.add_tokens_used` (src/users.py lines 156-167). -/
def add_tokens_used (today : Int) (m : QuotaMap) (uid : Int) (tokens : Int) :
    QuotaMap :=
  match lookupQ uid m with
  | none => setQ uid (today, tokens) m
  | some (last_date, current_tokens) =>
    if last_date < today then setQ uid (today, tokens) m
    else setQ uid (today, current_tokens + tokens) m

/-! ## Pending-event registry and confirm flow
(`src/bot.py`, `CalendarBot._process_callback`, lines 358-393)

`self.parsed_events` is a `dict[message_id -> event]`; we model it as an
association list.  The calendar adapter's `add_event` is an external
collaborator, passed in as a function from the event to its
`(success, error)` result.  The embedding records, besides the resulting
registry, the list of events for which a commit was attempted and the
user-visible actions, so that "reaches a commit attempt" is observable. -/

structure ParsedEvent where
  title : String := ""
  start_time : String := ""
  end_time : String := ""
  description : String := ""
  location : String := ""
deriving DecidableEq

abbrev EventRegistry := List (Nat × ParsedEvent)

def lookupE (mid : Nat) : EventRegistry → Option ParsedEvent
  | [] => none
  | (k, v) :: rest => if k = mid then some v else lookupE mid rest

def removeE (mid : Nat) (reg : EventRegistry) : EventRegistry :=
  reg.filter (fun p => p.1 ≠ mid)

inductive CbAction where
  | answer (s : String)
  | replyText (s : String)
  | editKeyboard (callback_data : String)
deriving DecidableEq

/-- Exact content of the `"Ошибка: не удалось найти информацию о событии"`
mojibake literal at src/bot.py line 365. -/
def answer_not_found : String :=
  "–û—à–∏–±–∫–∞: –Ω–µ —É–¥–∞–ª–æ—Å—å –Ω–∞–π—Ç–∏ –∏–Ω—Ñ–æ—Ä–º–∞—Ü–∏—é –æ —Å–æ–±—ã—Ç–∏–∏"

/-- Exact content of the success-answer literal at src/bot.py line 378. -/
def answer_added : String :=
  "‚úÖ –°–æ–±—ã—Ç–∏–µ –¥–æ–±–∞–≤–ª–µ–Ω–æ –≤ –∫–∞–ª–µ–Ω–¥–∞—Ä—å"

/-- Exact content of the error-answer literal at src/bot.py line 385. -/
def answer_error : String :=
  "‚ùå –û—à–∏–±–∫–∞"

/-- Exact content of the `f"❌ {error}"` prefix at src/bot.py line 386. -/
def error_reply_head : String := "‚ùå "

/-- Python's f-string rendering of an optional error text (`None` prints
as `"None"`; on the failure path the adapter always supplies a string). -/
def pyStr (o : Option String) : String :=
  match o with
  | some s => s
  | none => "None"

structure CbResult where
  registry : EventRegistry
  commit_attempts : List ParsedEvent
  actions : List CbAction
deriving DecidableEq

/-- The `action == 'add'` branch of `CalendarBot._process_callback`
(src/bot.py lines 362-386).  The event is looked up with `dict.get`
(no removal); `del` runs only on commit success. -/
def process_callback_add (reg : EventRegistry) (mid : Nat)
    (commit : ParsedEvent → Bool × Option String) : CbResult :=
  match lookupE mid reg with
  | none => ⟨reg, [], [.answer answer_not_found]⟩
  | some event =>
    if (commit event).1 then
      ⟨removeE mid reg, [event],
        [.answer answer_added, .editKeyboard "added"]⟩
    else
      ⟨reg, [event],
        [.answer answer_error,
         .replyText (error_reply_head ++ pyStr (commit event).2)]⟩

/-! ## Conversation handler `process`
(`src/bot.py`, `CalendarBot._process_message_with_image`, lines 270-339)

The filesystem is modelled as the list of existing paths; the user store
gates become the booleans `has_creds` (`has_caldav_credentials`) and
`token_ok` (`check_token_limit`), and the extraction service
(`self.llm.parse_calendar_event`) is an oracle from the resolved text to
either a raised exception or a returned optional event dict. -/

def optTruthy : Option String → Bool
  | none => false
  | some s => s ≠ ""

structure LlmEvent where
  result : Bool
  comment : Option String := none
  tokens_used : Int := 0
deriving DecidableEq

inductive LlmOutcome where
  | raised
  | returned (ev : Option LlmEvent)

inductive ProcOutcome where
  | noCreds
  | quotaExhausted
  | excCaught
  | internalError
  | parseFail (reason : String)
  | success
deriving DecidableEq

structure ProcResult where
  fs : List String
  outcome : ProcOutcome
  llm_input : Option String
deriving DecidableEq

/-- Exact content of the default-prompt mojibake literal at src/bot.py
line 290 (`"Добавь это событие в календарь"`). -/
def default_prompt : String :=
  "–î–æ–±–∞–≤—å —ç—Ç–æ —Å–æ–±—ã—Ç–∏–µ –≤ –∫–∞–ª–µ–Ω–¥–∞—Ä—å"

/-- Text resolution of src/bot.py lines 284-290: use the caption when no
text was passed and the caption is truthy, then substitute the default
prompt when the text is still falsy (absent or empty). -/
def resolve_text (text caption : Option String) : String :=
  match (if text.isNone && optTruthy caption then caption else text) with
  | none => default_prompt
  | some t => if t = "" then default_prompt else t

/-- `CalendarBot._process_message_with_image` (src/bot.py lines 270-339),
restricted to its filesystem/outcome behaviour.  The temporary-file
deletion (lines 306-311) sits after the extraction call, inside the big
`try`; the two precondition early returns and the outer `except` never
reach it. -/
def process_message_with_image (has_creds token_ok : Bool)
    (llm : String → LlmOutcome) (text caption image_path : Option String)
    (fs : List String) : ProcResult :=
  if has_creds then
    if token_ok then
      let t := resolve_text text caption
      match llm t with
      | .raised => ⟨fs, .excCaught, some t⟩
      | .returned ev =>
        let fs1 :=
          if optTruthy image_path then
            fs.filter (fun q => q ≠ image_path.getD "")
          else fs
        match ev with
        | none => ⟨fs1, .internalError, some t⟩
        | some e =>
          if e.result then ⟨fs1, .success, some t⟩
          else ⟨fs1, .parseFail (e.comment.getD "Unknown error"), some t⟩
    else ⟨fs, .quotaExhausted, none⟩
  else ⟨fs, .noCreds, none⟩

/-! ## Message batcher
(`src/bot.py`, `MessageBatcher`, lines 16-193, and
`CalendarBot._process_batched_messages`, lines 395-423)

`self._batches : dict[int, MessageBatch]` becomes an association list;
`asyncio.call_later` handles become timer identifiers: scheduling puts a
fresh identifier into a live-set, `cancel()` removes it, and a fire
removes it and enqueues a `_process_batch(user_id)` task (the
`asyncio.create_task` indirection of line 159), which a later scheduler
step runs.  A handoff to the conversation handler is the batch value the
flush passes to `process_callback`. -/

structure TgUser where
  id : Int
  first_name : Option String := none
  username : Option String := none
deriving DecidableEq

structure Msg where
  from_user : Option TgUser := none
  forward_from : Option TgUser := none
  forward_sender_name : Option String := none
deriving DecidableEq

/-- Python's `a or b` on an optional string (empty strings are falsy). -/
def pyOrStr (a : Option String) (b : String) : String :=
  match a with
  | some s => if s = "" then b else s
  | none => b

def userDisplayName (u : TgUser) : String :=
  pyOrStr u.first_name (pyOrStr u.username "Unknown")

/-- `MessageBatcher._get_sender_name` (src/bot.py lines 48-60). -/
def get_sender_name (m : Msg) : String :=
  match m.forward_from with
  | some u => userDisplayName u
  | none =>
    if optTruthy m.forward_sender_name then m.forward_sender_name.getD "Unknown"
    else
      match m.from_user with
      | some u => userDisplayName u
      | none => "Unknown"

/-- `MessageBatcher._get_sender_user_id` (src/bot.py lines 62-74). -/
def get_sender_user_id (m : Msg) : Option Int :=
  match m.forward_from with
  | some u => some u.id
  | none =>
    if optTruthy m.forward_sender_name then none
    else m.from_user.map (fun u => u.id)

/-- The fixpoint of `while '  ' in s: s = s.replace('  ', ' ')`: every
maximal run of spaces becomes a single space. -/
def collapseSpaces : List Char → List Char
  | [] => []
  | [c] => [c]
  | c1 :: c2 :: rest =>
    if c1 = ' ' && c2 = ' ' then collapseSpaces (c2 :: rest)
    else c1 :: collapseSpaces (c2 :: rest)

/-- Python `str.strip()` whitespace set. -/
def isPySpace (c : Char) : Bool :=
  c = ' ' || c = '\t' || c = '\n' || c = '\x0b' || c = '\x0c' || c = '\r'

def stripList (cs : List Char) : List Char :=
  ((cs.dropWhile isPySpace).reverse.dropWhile isPySpace).reverse

/-- Exact content of the calendar-owner marker mojibake literal at
src/bot.py line 91 (`"(пользователь календаря)"`, parentheses included). -/
def owner_marker : String :=
  "(–ø–æ–ª—å–∑–æ–≤–∞—Ç–µ–ª—å –∫–∞–ª–µ–Ω–¥–∞—Ä—è)"

/-- `MessageBatcher._format_message_text` (src/bot.py lines 76-92). -/
def format_message_text (name text : String) (is_calendar_owner : Bool) :
    String :=
  let clean_text := String.mk (collapseSpaces
    (text.data.map (fun c => if c = '\n' || c = '\r' then ' ' else c)))
  let stripped := String.mk (stripList clean_text.data)
  if is_calendar_owner then name ++ " " ++ owner_marker ++ ": " ++ stripped
  else name ++ ": " ++ stripped

/-- `MessageBatch` (src/bot.py lines 16-24); monotonic timestamps are not
modelled (the spec uses `first_message_time` only for diagnostics). -/
structure MessageBatch where
  messages : List String := []
  images : List String := []
  timer : Option Nat := none
  first_message_time : Nat := 0
  first_message : Msg := {}
  owner_user_id : Option Int := none
deriving DecidableEq

structure BatcherState where
  batches : List (Int × MessageBatch) := []
  live : List (Nat × Int) := []
  tasks : List Int := []
  nextTimer : Nat := 0
deriving DecidableEq

def lookupKey (uid : Int) : List (Int × MessageBatch) → Option MessageBatch
  | [] => none
  | (k, b) :: rest => if k = uid then some b else lookupKey uid rest

def removeKey (uid : Int) (l : List (Int × MessageBatch)) :
    List (Int × MessageBatch) :=
  l.filter (fun p => p.1 ≠ uid)

def setKey (uid : Int) (b : MessageBatch) (l : List (Int × MessageBatch)) :
    List (Int × MessageBatch) :=
  (uid, b) :: removeKey uid l

/-- `TimerHandle.cancel()`: a live (scheduled, unfired) timer is
descheduled; cancelling an already-fired or already-cancelled handle is a
no-op. -/
def cancelTimer (t : Nat) (s : BatcherState) : BatcherState :=
  { s with live := s.live.filter (fun p => p.1 ≠ t) }

def cancelBatchTimer (b : MessageBatch) (s : BatcherState) : BatcherState :=
  match b.timer with
  | some t => cancelTimer t s
  | none => s

/-- `MessageBatcher._schedule_processing` (src/bot.py lines 144-160). -/
def schedule_processing (uid : Int) (s : BatcherState) : BatcherState :=
  match lookupKey uid s.batches with
  | none => s
  | some b =>
    let s1 := cancelBatchTimer b s
    { s1 with
      batches := setKey uid { b with timer := some s1.nextTimer } s1.batches,
      live := (s1.nextTimer, uid) :: s1.live,
      nextTimer := s1.nextTimer + 1 }

/-- `MessageBatcher._process_batch` (src/bot.py lines 162-193): pop the
batch first, cancel its timer, drop it silently when empty, otherwise
hand it to the process callback. -/
def process_batch (uid : Int) (s : BatcherState) :
    BatcherState × Option MessageBatch :=
  match lookupKey uid s.batches with
  | none => (s, none)
  | some batch =>
    let s1 := cancelBatchTimer batch { s with batches := removeKey uid s.batches }
    if batch.messages.isEmpty && batch.images.isEmpty then (s1, none)
    else (s1, some { batch with timer := none })

/-- The `is_calendar_owner` test of src/bot.py lines 124-128. -/
def ownerFlag (owner : Option Int) (m : Msg) : Bool :=
  owner.isSome && (get_sender_user_id m).isSome && (get_sender_user_id m == owner)

/-- The formatted line a text fragment contributes to a batch owned by
`owner` (src/bot.py lines 120-130). -/
def fragmentLine (owner : Option Int) (text : String) (m : Msg) : String :=
  format_message_text (get_sender_name m) text (ownerFlag owner m)

/-- `MessageBatcher.add_message` (src/bot.py lines 94-142). -/
def add_message (maxB : Nat) (uid : Int) (text image_path : Option String)
    (msg : Msg) (s : BatcherState) : BatcherState × Option MessageBatch :=
  let b0 : MessageBatch :=
    match lookupKey uid s.batches with
    | some b => { b with timer := none }
    | none =>
      { first_message_time := 0, first_message := msg,
        owner_user_id := msg.from_user.map (fun u => u.id) }
  let s1 :=
    match lookupKey uid s.batches with
    | some b => cancelBatchTimer b s
    | none => s
  let b1 :=
    if optTruthy text then
      { b0 with messages :=
          b0.messages ++ [fragmentLine b0.owner_user_id (text.getD "") msg] }
    else b0
  let b2 :=
    if optTruthy image_path then
      { b1 with images := b1.images ++ [image_path.getD ""] }
    else b1
  let s2 := { s1 with batches := setKey uid b2 s1.batches }
  if maxB ≤ b2.messages.length + b2.images.length then
    process_batch uid s2
  else
    (schedule_processing uid s2, none)

/-- The combined text `CalendarBot._process_batched_messages` builds from
a flushed batch (src/bot.py line 398). -/
def combined_text (b : MessageBatch) : Option String :=
  if b.messages.isEmpty then none
  else some (String.intercalate "\n" b.messages)

/-- The image `_process_batched_messages` forwards (src/bot.py line 401). -/
def batch_image (b : MessageBatch) : Option String := b.images.head?

/-- Scheduler-visible events: an inbound fragment, an `asyncio` timer
firing (which enqueues the `_process_batch` task of src/bot.py line 159),
and the event loop running the first queued task. -/
inductive BEvent where
  | submit (uid : Int) (text image_path : Option String) (msg : Msg)
  | timerFire (t : Nat)
  | runTask

def findTimer (t : Nat) : List (Nat × Int) → Option Int
  | [] => none
  | (t', uid) :: rest => if t' = t then some uid else findTimer t rest

def stepEvent (maxB : Nat) (s : BatcherState) :
    BEvent → BatcherState × Option MessageBatch
  | .submit uid text image msg => add_message maxB uid text image msg s
  | .timerFire t =>
    match findTimer t s.live with
    | some uid => ({ cancelTimer t s with tasks := s.tasks ++ [uid] }, none)
    | none => (s, none)
  | .runTask =>
    match s.tasks with
    | [] => (s, none)
    | uid :: rest => process_batch uid { s with tasks := rest }

/-- Run a trace of events, collecting handoffs in order. -/
def runEvents (maxB : Nat) (s : BatcherState) :
    List BEvent → BatcherState × List MessageBatch
  | [] => (s, [])
  | e :: es =>
    let r1 := stepEvent maxB s e
    let r2 := runEvents maxB r1.1 es
    (r2.1, r1.2.toList ++ r2.2)

/-- Canonical batcher state while one user's debounce cycle is in
flight: a single batch of accumulated text lines whose timer `tid` is the
only live timer, with no queued flush task. -/
def debounceState (uid : Int) (L : List String) (tid : Nat) (m0 : Msg)
    (ow : Option Int) : BatcherState :=
  { batches := [(uid,
      { messages := L, images := [], timer := some tid,
        first_message_time := 0, first_message := m0, owner_user_id := ow })],
    live := [(tid, uid)], tasks := [], nextTimer := tid + 1 }

end CaldavBot

open CaldavBot

/-- C6: a quota record whose day precedes today reports the full limit from
`get_remaining_tokens` and `true` from `check_token_limit`, regardless of
the recorded consumption. -/
theorem quota_rollover_full_limit
    (today limit d n : Int) (m : QuotaMap) (uid : Int)
    (hrec : lookupQ uid m = some (d, n)) (hstale : d < today) :
    (get_remaining_tokens today limit m uid).1 = limit ∧
    (check_token_limit today limit m uid).1 = true := by
  constructor
  · simp [get_remaining_tokens, hrec, hstale]
  · simp [check_token_limit, hrec, hstale]

/-- Witness for C6 at a concrete stale record. -/
theorem quota_rollover_full_limit_w :
    (get_remaining_tokens 100 30000 [(1, (99, 12345))] 1).1 = 30000 ∧
    (check_token_limit 100 30000 [(1, (99, 12345))] 1).1 = true :=
  quota_rollover_full_limit 100 30000 99 12345 [(1, (99, 12345))] 1
    (by decide) (by decide)

/-- C7 counterexample: `get_remaining_tokens` is a read on a stale record
that does not advance the stored record's day to today — after the read
the record still carries yesterday's date, refuting the claim that every
read first resets the stored record. -/
theorem stale_read_not_reset_cex :
    (get_remaining_tokens 100 30000 [(1, (99, 12345))] 1).2
        = [(1, (99, 12345))] ∧
    lookupQ 1 (get_remaining_tokens 100 30000 [(1, (99, 12345))] 1).2
        = some (99, 12345) ∧
    (99 : Int) ≠ 100 := by
  refine ⟨rfl, by decide, by decide⟩

/-- C7 amended: `check_token_limit` and `add_tokens_used` do advance a
stale record to today (resetting the count, respectively overwriting it
with the new consumption), while `get_remaining_tokens` merely computes
the rolled-over value and leaves the stored record unchanged. -/
theorem stale_reset_on_check_and_add
    (today limit d n tokens : Int) (m : QuotaMap) (uid : Int)
    (hrec : lookupQ uid m = some (d, n)) (hstale : d < today) :
    lookupQ uid (check_token_limit today limit m uid).2 = some (today, 0) ∧
    lookupQ uid (add_tokens_used today m uid tokens) = some (today, tokens) ∧
    (get_remaining_tokens today limit m uid).2 = m ∧
    (get_remaining_tokens today limit m uid).1 = limit := by
  refine ⟨?_, ?_, ?_, ?_⟩
  · simp [check_token_limit, hrec, hstale, setQ, lookupQ]
  · simp [add_tokens_used, hrec, hstale, setQ, lookupQ]
  · simp [get_remaining_tokens, hrec, hstale]
  · simp [get_remaining_tokens, hrec, hstale]

/-- Witness for the amended C7 at a concrete stale record. -/
theorem stale_reset_on_check_and_add_w :
    lookupQ 1 (check_token_limit 100 30000 [(1, (99, 12345))] 1).2
        = some (100, 0) ∧
    lookupQ 1 (add_tokens_used 100 [(1, (99, 12345))] 1 777)
        = some (100, 777) ∧
    (get_remaining_tokens 100 30000 [(1, (99, 12345))] 1).2
        = [(1, (99, 12345))] ∧
    (get_remaining_tokens 100 30000 [(1, (99, 12345))] 1).1 = 30000 :=
  stale_reset_on_check_and_add 100 30000 99 12345 777 [(1, (99, 12345))] 1
    (by decide) (by decide)

/-- C9: `get_remaining_tokens` never returns a negative number (the fresh
branch clamps at zero with `max`), even though consumption itself is not
capped: with the default limit 30000, a user at 29999 consumed units still
passes `check_token_limit`, and `add_tokens_used` then records the full
cost of the request, pushing the stored count to 34999, strictly above the
limit. -/
theorem remaining_nonneg_consumption_uncapped :
    (∀ (today limit : Int) (m : QuotaMap) (uid : Int),
        0 ≤ limit → 0 ≤ (get_remaining_tokens today limit m uid).1) ∧
    (check_token_limit 100 30000 [(1, (100, 29999))] 1).1 = true ∧
    lookupQ 1 (add_tokens_used 100 [(1, (100, 29999))] 1 5000)
        = some (100, 34999) ∧
    (30000 : Int) < 34999 := by
  refine ⟨?_, by decide, by decide, by decide⟩
  intro today limit m uid hlim
  unfold get_remaining_tokens
  match h : lookupQ uid m with
  | none => simpa using hlim
  | some (d, t) =>
    by_cases hd : d < today
    · simpa [hd] using hlim
    · simp [hd]

/-- Witness for C9's universally quantified clamping part, applied at a
concrete record that is over the limit. -/
theorem remaining_nonneg_consumption_uncapped_w :
    0 ≤ (get_remaining_tokens 100 30000 [(1, (100, 34999))] 1).1 :=
  remaining_nonneg_consumption_uncapped.1 100 30000 [(1, (100, 34999))] 1
    (by decide)

/-- Helper: removing a key from the event registry makes its lookup miss. -/
theorem lookupE_removeE (mid : Nat) (reg : EventRegistry) :
    lookupE mid (removeE mid reg) = none := by
  induction reg with
  | nil => rfl
  | cons p rest ih =>
    by_cases h : p.1 = mid
    · simpa [removeE, h] using ih
    · simpa [removeE, lookupE, h] using ih

/-- C1 counterexample: with a registered event whose commit fails, the
registry entry is *not* removed (the lookup is a `dict.get`, removal only
happens on success), and a retry of the same confirm reaches a second
commit attempt — at odds with the claimed lookup-and-remove-first,
no-second-commit behaviour. -/
theorem confirm_retry_after_failure_cex :
    lookupE 1 (process_callback_add [(1, {})] 1
        (fun _ => (false, some "calendar not reachable"))).registry
      = some {} ∧
    (process_callback_add [(1, {})] 1
        (fun _ => (false, some "calendar not reachable"))).commit_attempts
      = [{}] ∧
    (process_callback_add
        (process_callback_add [(1, {})] 1
          (fun _ => (false, some "calendar not reachable"))).registry 1
        (fun _ => (false, some "calendar not reachable"))).commit_attempts
      = [{}] := by
  refine ⟨by decide, by decide, by decide⟩

/-- C1 amended: the confirm handler looks the pending event up *without*
removing it; the commit is attempted exactly once per confirm; on success
the entry is removed and the keyboard is switched to the terminal
`"added"` state, while on failure the adapter's error text is surfaced
verbatim and the registry is left unchanged, so retrying the same confirm
reaches another commit attempt. -/
theorem confirm_lookup_without_removal
    (reg : EventRegistry) (mid : Nat) (ev : ParsedEvent)
    (commit : ParsedEvent → Bool × Option String)
    (hreg : lookupE mid reg = some ev) :
    (process_callback_add reg mid commit).commit_attempts = [ev] ∧
    ((commit ev).1 = true →
      lookupE mid (process_callback_add reg mid commit).registry = none ∧
      (process_callback_add reg mid commit).actions
        = [.answer answer_added, .editKeyboard "added"]) ∧
    ((commit ev).1 = false →
      (process_callback_add reg mid commit).registry = reg ∧
      (process_callback_add reg mid commit).actions
        = [.answer answer_error,
           .replyText (error_reply_head ++ pyStr (commit ev).2)] ∧
      (process_callback_add
          (process_callback_add reg mid commit).registry mid
          commit).commit_attempts = [ev]) := by
  by_cases h : (commit ev).1
  · refine ⟨?_, fun _ => ⟨?_, ?_⟩, fun hf => by simp [h] at hf⟩
    · simp [process_callback_add, hreg, h]
    · simp [process_callback_add, hreg, h, lookupE_removeE]
    · simp [process_callback_add, hreg, h]
  · have h' : (commit ev).1 = false := by simpa using h
    refine ⟨?_, fun ht => by simp [h'] at ht, fun _ => ⟨?_, ?_, ?_⟩⟩
    · simp [process_callback_add, hreg, h']
    · simp [process_callback_add, hreg, h']
    · simp [process_callback_add, hreg, h']
    · simp [process_callback_add, hreg, h']

/-- Witness for the amended C1 at a concrete registry and failing commit. -/
theorem confirm_lookup_without_removal_w :
    (process_callback_add [(1, {})] 1
        (fun _ => (false, some "boom"))).commit_attempts = [({} : ParsedEvent)] ∧
    ((((fun (_ : ParsedEvent) => (false, some "boom")) {}).1 = true) →
      lookupE 1 (process_callback_add [(1, {})] 1
          (fun _ => (false, some "boom"))).registry = none ∧
      (process_callback_add [(1, {})] 1
          (fun _ => (false, some "boom"))).actions
        = [.answer answer_added, .editKeyboard "added"]) ∧
    ((((fun (_ : ParsedEvent) => (false, some "boom")) {}).1 = false) →
      (process_callback_add [(1, {})] 1
          (fun _ => (false, some "boom"))).registry = [(1, {})] ∧
      (process_callback_add [(1, {})] 1
          (fun _ => (false, some "boom"))).actions
        = [.answer answer_error,
           .replyText (error_reply_head
             ++ pyStr ((fun (_ : ParsedEvent) => (false, some "boom")) {}).2)] ∧
      (process_callback_add
          (process_callback_add [(1, {})] 1
            (fun _ => (false, some "boom"))).registry 1
          (fun _ => (false, some "boom"))).commit_attempts
        = [({} : ParsedEvent)]) :=
  confirm_lookup_without_removal [(1, {})] 1 {}
    (fun _ => (false, some "boom")) (by decide)

/-- C4 counterexample: calling `process` for a user with no stored
credentials and a temporary image on disk returns via the missing-creds
early return and leaves the image file behind — so not every outcome
deletes the image. -/
theorem cleanup_missing_creds_cex :
    (process_message_with_image false true (fun _ => .returned none)
        none none (some "/tmp/img.jpg") ["/tmp/img.jpg"]).fs
      = ["/tmp/img.jpg"] ∧
    (process_message_with_image false true (fun _ => .returned none)
        none none (some "/tmp/img.jpg") ["/tmp/img.jpg"]).outcome
      = .noCreds := by
  refine ⟨by decide, by decide⟩

/-- C4 amended: the image file is deleted for every outcome in which the
extraction call returns (success, semantic extraction failure, and
transport errors, which the extraction layer reports as a returned
failure); the missing-credentials and exhausted-quota early returns, and
an exception escaping the extraction call, leave the file untouched. -/
theorem cleanup_after_extraction_return
    (llm llm2 : String → LlmOutcome) (ev : Option LlmEvent)
    (text caption : Option String) (p : String) (fs : List String)
    (tk : Bool)
    (hp : p ≠ "")
    (hret : llm (resolve_text text caption) = .returned ev)
    (hraise : llm2 (resolve_text text caption) = .raised) :
    p ∉ (process_message_with_image true true llm
          text caption (some p) fs).fs ∧
    (process_message_with_image false tk llm
        text caption (some p) fs).fs = fs ∧
    (process_message_with_image true false llm
        text caption (some p) fs).fs = fs ∧
    (process_message_with_image true true llm2
        text caption (some p) fs).fs = fs := by
  refine ⟨?_, by simp [process_message_with_image],
    by simp [process_message_with_image],
    by simp [process_message_with_image, hraise]⟩
  unfold process_message_with_image
  simp only [if_true, hret]
  have hot : optTruthy (some p) = true := by simpa [optTruthy] using hp
  cases ev with
  | none => simp [hot, List.mem_filter]
  | some e =>
    by_cases hr : e.result <;> simp [hr, hot, List.mem_filter]

/-- Witness for the amended C4 at a concrete image path and outcomes. -/
theorem cleanup_after_extraction_return_w :
    "/tmp/a.jpg" ∉ (process_message_with_image true true
          (fun _ => .returned (some ⟨true, none, 7⟩))
          (some "hi") none (some "/tmp/a.jpg") ["/tmp/a.jpg", "x"]).fs ∧
    (process_message_with_image false true
        (fun _ => .returned (some ⟨true, none, 7⟩))
        (some "hi") none (some "/tmp/a.jpg") ["/tmp/a.jpg", "x"]).fs
      = ["/tmp/a.jpg", "x"] ∧
    (process_message_with_image true false
        (fun _ => .returned (some ⟨true, none, 7⟩))
        (some "hi") none (some "/tmp/a.jpg") ["/tmp/a.jpg", "x"]).fs
      = ["/tmp/a.jpg", "x"] ∧
    (process_message_with_image true true (fun _ => .raised)
        (some "hi") none (some "/tmp/a.jpg") ["/tmp/a.jpg", "x"]).fs
      = ["/tmp/a.jpg", "x"] :=
  cleanup_after_extraction_return
    (fun _ => .returned (some ⟨true, none, 7⟩)) (fun _ => .raised)
    (some ⟨true, none, 7⟩) (some "hi") none "/tmp/a.jpg"
    ["/tmp/a.jpg", "x"] true (by decide) rfl rfl

/-- Helper: the resolved text handed to the extraction service is never
the empty string. -/
theorem resolve_text_ne_empty (text caption : Option String) :
    resolve_text text caption ≠ "" := by
  unfold resolve_text
  generalize (if text.isNone && optTruthy caption then caption else text) = t1
  cases t1 with
  | none => decide
  | some t =>
    by_cases h : t = ""
    · simp only [h, if_true]; decide
    · simp [h]

/-- Helper: whenever `process` reaches the extraction call, the text it
passes is exactly `resolve_text text caption`. -/
theorem llm_input_resolved (hc tk : Bool) (llm : String → LlmOutcome)
    (text caption image_path : Option String) (fs : List String) :
    (process_message_with_image hc tk llm text caption image_path fs).llm_input
        = none ∨
    (process_message_with_image hc tk llm text caption image_path fs).llm_input
        = some (resolve_text text caption) := by
  cases hc with
  | false => left; simp [process_message_with_image]
  | true =>
    cases tk with
    | false => left; simp [process_message_with_image]
    | true =>
      right
      unfold process_message_with_image
      simp only [if_true]
      cases llm (resolve_text text caption) with
      | raised => rfl
      | returned ev =>
        cases ev with
        | none => simp
        | some e => by_cases hr : e.result <;> simp [hr]

/-- C10: the extraction service is never invoked with empty text — any
text actually handed to the extraction call is non-empty, and in
particular when `process` receives no text and no caption the fixed
default prompt is substituted. -/
theorem llm_never_empty_text :
    (∀ (hc tk : Bool) (llm : String → LlmOutcome)
        (text caption image_path : Option String) (fs : List String)
        (t : String),
        (process_message_with_image hc tk llm text caption
            image_path fs).llm_input = some t → t ≠ "") ∧
    resolve_text none none = default_prompt ∧
    default_prompt ≠ "" := by
  refine ⟨?_, rfl, by decide⟩
  intro hc tk llm text caption image_path fs t h
  rcases llm_input_resolved hc tk llm text caption image_path fs with h0 | h0
  · rw [h0] at h; exact absurd h (by simp)
  · rw [h0] at h
    have : t = resolve_text text caption := by
      injection h with h'; exact h'.symm
    rw [this]
    exact resolve_text_ne_empty text caption

/-- Witness for C10's quantified part: an image-only invocation (no text,
no caption) reaches the extraction call with the non-empty default
prompt. -/
theorem llm_never_empty_text_w :
    resolve_text none none ≠ "" :=
  llm_never_empty_text.1 true true (fun _ => .raised) none none none []
    (resolve_text none none) (by rfl)

/-- Helper: removing a user's batch makes its lookup miss. -/
theorem lookupKey_removeKey (uid : Int) (l : List (Int × MessageBatch)) :
    lookupKey uid (removeKey uid l) = none := by
  induction l with
  | nil => rfl
  | cons p rest ih =>
    by_cases h : p.1 = uid
    · simpa [removeKey, h] using ih
    · simpa [removeKey, lookupKey, h] using ih

/-- Helper: updating a user's batch makes its lookup hit. -/
theorem lookupKey_setKey (uid : Int) (b : MessageBatch)
    (l : List (Int × MessageBatch)) :
    lookupKey uid (setKey uid b l) = some b := by
  simp [setKey, lookupKey]

/-- Helper: cancelling a batch's timer does not touch the batch map. -/
theorem cancelBatchTimer_batches (b : MessageBatch) (s : BatcherState) :
    (cancelBatchTimer b s).batches = s.batches := by
  cases h : b.timer <;> simp [cancelBatchTimer, cancelTimer, h]

/-- Helper: a flush on a present batch pops it first and hands it off
whenever it has content. -/
theorem process_batch_eq (uid : Int) (s : BatcherState) (batch : MessageBatch)
    (hb : lookupKey uid s.batches = some batch)
    (hne : (batch.messages.isEmpty && batch.images.isEmpty) = false) :
    process_batch uid s
      = (cancelBatchTimer batch { s with batches := removeKey uid s.batches },
         some { batch with timer := none }) := by
  simp [process_batch, hb, hne]

/-- Helper: a flush for a user with no batch in the live map is a no-op. -/
theorem process_batch_absent (uid : Int) (s : BatcherState)
    (h : lookupKey uid s.batches = none) :
    process_batch uid s = (s, none) := by
  simp [process_batch, h]

/-- C2: flushing pops the batch from the live map before anything else, so
when a timer-expiry flush and a size-threshold flush race on the same
(non-empty) batch, the first `_process_batch` performs the single handoff
and the second observes an absent batch and is a complete no-op. -/
theorem flush_at_most_once (s : BatcherState) (uid : Int)
    (batch : MessageBatch)
    (hb : lookupKey uid s.batches = some batch)
    (hne : batch.messages ≠ [] ∨ batch.images ≠ []) :
    (process_batch uid s).2 = some { batch with timer := none } ∧
    lookupKey uid (process_batch uid s).1.batches = none ∧
    (process_batch uid (process_batch uid s).1).2 = none ∧
    (process_batch uid (process_batch uid s).1).1 = (process_batch uid s).1 := by
  have hcond : (batch.messages.isEmpty && batch.images.isEmpty) = false := by
    rcases hne with h | h <;>
      cases hm : batch.messages <;> cases hi : batch.images <;> simp_all
  have heq := process_batch_eq uid s batch hb hcond
  have hbatches : (process_batch uid s).1.batches = removeKey uid s.batches := by
    rw [heq, cancelBatchTimer_batches]
  have hnone : lookupKey uid (process_batch uid s).1.batches = none := by
    rw [hbatches]; exact lookupKey_removeKey uid s.batches
  have h2 := process_batch_absent uid (process_batch uid s).1 hnone
  exact ⟨by rw [heq], hnone, by rw [h2], by rw [h2]⟩

/-- Witness for C2 on a concrete one-batch state. -/
theorem flush_at_most_once_w :
    (process_batch 5
        { batches := [(5, { messages := ["A: hi"], timer := some 3 })],
          live := [(3, 5)], nextTimer := 4 }).2
      = some { messages := ["A: hi"], timer := none } ∧
    lookupKey 5 (process_batch 5
        { batches := [(5, { messages := ["A: hi"], timer := some 3 })],
          live := [(3, 5)], nextTimer := 4 }).1.batches = none ∧
    (process_batch 5 (process_batch 5
        { batches := [(5, { messages := ["A: hi"], timer := some 3 })],
          live := [(3, 5)], nextTimer := 4 }).1).2 = none ∧
    (process_batch 5 (process_batch 5
        { batches := [(5, { messages := ["A: hi"], timer := some 3 })],
          live := [(3, 5)], nextTimer := 4 }).1).1
      = (process_batch 5
        { batches := [(5, { messages := ["A: hi"], timer := some 3 })],
          live := [(3, 5)], nextTimer := 4 }).1 :=
  flush_at_most_once
    { batches := [(5, { messages := ["A: hi"], timer := some 3 })],
      live := [(3, 5)], nextTimer := 4 } 5
    { messages := ["A: hi"], timer := some 3 } (by decide) (by decide)

/-- Helper: cancelling a `none` timer handle is the identity. -/
theorem cancelBatchTimer_none (b : MessageBatch) (s : BatcherState)
    (h : b.timer = none) : cancelBatchTimer b s = s := by
  simp [cancelBatchTimer, h]

/-- Helper: removing a key right after setting it equals removing it from
the original map. -/
theorem removeKey_setKey (uid : Int) (b : MessageBatch)
    (l : List (Int × MessageBatch)) :
    removeKey uid (setKey uid b l) = removeKey uid l := by
  simp [setKey, removeKey]

/-- Helper: after cancelling the only timer the live set holds for `uid`,
no timer for `uid` remains live. -/
theorem not_mem_live_cancel (s : BatcherState) (uid : Int) (b : MessageBatch)
    (hlive : ∀ t, (t, uid) ∈ s.live → b.timer = some t) :
    ∀ t, (t, uid) ∉ (cancelBatchTimer b s).live := by
  intro t ht
  cases htm : b.timer with
  | none =>
    rw [cancelBatchTimer_none b s htm] at ht
    exact absurd (hlive t ht) (by simp [htm])
  | some t0 =>
    simp only [cancelBatchTimer, htm, cancelTimer, List.mem_filter,
      decide_eq_true_eq] at ht
    have h1 := hlive t ht.1
    rw [htm] at h1
    have ht0 : t0 = t := by injection h1
    exact ht.2 (by simp [ht0])

/-- C5: a submission that brings the batch's accumulated item count
(text lines plus image paths) to exactly the configured maximum flushes
synchronously inside `add_message` (the handoff is returned by the
submission itself), removes the user's batch, and leaves no live debounce
timer for that user. -/
theorem size_threshold_flush_sync
    (maxB : Nat) (uid : Int) (text image_path : Option String) (msg : Msg)
    (s : BatcherState)
    (hadd : optTruthy text = true ∨ optTruthy image_path = true)
    (hcount : (match lookupKey uid s.batches with
               | some b => b.messages.length + b.images.length
               | none => 0)
        + ((if optTruthy text then 1 else 0)
           + (if optTruthy image_path then 1 else 0)) = maxB)
    (hlive : ∀ t, (t, uid) ∈ s.live →
        ∃ b, lookupKey uid s.batches = some b ∧ b.timer = some t) :
    (add_message maxB uid text image_path msg s).2.isSome = true ∧
    lookupKey uid (add_message maxB uid text image_path msg s).1.batches
      = none ∧
    ∀ t, (t, uid) ∉ (add_message maxB uid text image_path msg s).1.live := by
  rcases hlk : lookupKey uid s.batches with _ | b
  · have hnotin : ∀ t, (t, uid) ∉ s.live := by
      intro t ht
      obtain ⟨b', hb', _⟩ := hlive t ht
      rw [hlk] at hb'
      cases hb'
    cases hot : optTruthy text <;> cases hoi : optTruthy image_path <;>
      [(simp [hot, hoi] at hadd); skip; skip; skip] <;>
    · simp only [hlk] at hcount
      simp [hot, hoi] at hcount
      simp only [add_message, hlk]
      simp [hot, hoi]
      split
      · refine ⟨?_, ?_, ?_⟩
        · simp [process_batch, lookupKey_setKey, removeKey_setKey,
            lookupKey_removeKey, cancelBatchTimer_none]
        · simp [process_batch, lookupKey_setKey, removeKey_setKey,
            lookupKey_removeKey, cancelBatchTimer_none]
        · simp only [process_batch, lookupKey_setKey, removeKey_setKey,
            lookupKey_removeKey, cancelBatchTimer_none]
          simpa using hnotin
      · rename_i hf
        exfalso
        try ring_nf at hcount hf
        omega
  · have hl' : ∀ t, (t, uid) ∈ s.live → b.timer = some t := by
      intro t ht
      obtain ⟨b', hb', htm⟩ := hlive t ht
      rw [hlk] at hb'
      injection hb' with hh
      rw [hh]
      exact htm
    have hnotin := not_mem_live_cancel s uid b hl'
    cases hot : optTruthy text <;> cases hoi : optTruthy image_path <;>
      [(simp [hot, hoi] at hadd); skip; skip; skip] <;>
    · simp only [hlk] at hcount
      simp [hot, hoi] at hcount
      simp only [add_message, hlk]
      simp [hot, hoi]
      split
      · refine ⟨?_, ?_, ?_⟩
        · simp [process_batch, lookupKey_setKey, removeKey_setKey,
            lookupKey_removeKey, cancelBatchTimer_none,
            cancelBatchTimer_batches]
        · simp [process_batch, lookupKey_setKey, removeKey_setKey,
            lookupKey_removeKey, cancelBatchTimer_none,
            cancelBatchTimer_batches]
        · simp only [process_batch, lookupKey_setKey, removeKey_setKey,
            lookupKey_removeKey, cancelBatchTimer_none,
            cancelBatchTimer_batches]
          simpa using hnotin
      · rename_i hf
        exfalso
        try ring_nf at hcount hf
        omega

/-- Witness for C5: with max 2, a user whose batch holds one line, and a
text submission, the flush happens inside the submission and no live
timer remains. -/
theorem size_threshold_flush_sync_w :
    (add_message 2 7 (some "there") none { from_user := some { id := 7 } }
        { batches := [(7, { messages := ["U: hi"], timer := some 0 })],
          live := [(0, 7)], nextTimer := 1 }).2.isSome = true ∧
    lookupKey 7 (add_message 2 7 (some "there") none
        { from_user := some { id := 7 } }
        { batches := [(7, { messages := ["U: hi"], timer := some 0 })],
          live := [(0, 7)], nextTimer := 1 }).1.batches = none ∧
    ∀ t, (t, 7) ∉ (add_message 2 7 (some "there") none
        { from_user := some { id := 7 } }
        { batches := [(7, { messages := ["U: hi"], timer := some 0 })],
          live := [(0, 7)], nextTimer := 1 }).1.live :=
  size_threshold_flush_sync 2 7 (some "there") none
    { from_user := some { id := 7 } }
    { batches := [(7, { messages := ["U: hi"], timer := some 0 })],
      live := [(0, 7)], nextTimer := 1 }
    (Or.inl (by decide)) (by decide)
    (by
      intro t ht
      have ht0 : t = 0 := by simpa using ht
      subst ht0
      exact ⟨{ messages := ["U: hi"], timer := some 0 }, rfl, rfl⟩)

/-- C8 counterexample: a fragment with neither text nor image, arriving
for a user with no batch, is not a state no-op — it creates an (empty)
batch for the user and arms a fresh debounce timer. -/
theorem empty_fragment_noop_cex :
    lookupKey 7 (add_message 30 7 none none {} {}).1.batches
      = some { timer := some 0 } ∧
    (0, 7) ∈ (add_message 30 7 none none {} {}).1.live := by
  refine ⟨by decide, by decide⟩

/-- Helper: cancelling a batch timer does not touch the timer counter. -/
theorem cancelBatchTimer_nextTimer (b : MessageBatch) (s : BatcherState) :
    (cancelBatchTimer b s).nextTimer = s.nextTimer := by
  cases h : b.timer <;> simp [cancelBatchTimer, cancelTimer, h]

/-- C8 amended: a fragment with neither text nor image appends no line and
no image — the batch content for the user is unchanged (empty, if there
was no batch) and no handoff can result, since a contentless batch is
dropped at flush — but it is not a bookkeeping no-op: it creates the
batch when absent and cancels and re-arms the user's debounce timer. -/
theorem empty_fragment_content_noop
    (maxB : Nat) (uid : Int) (msg : Msg) (s : BatcherState)
    (hroom : (match lookupKey uid s.batches with
              | some b => b.messages.length + b.images.length
              | none => 0) < maxB) :
    (add_message maxB uid none none msg s).2 = none ∧
    (∃ b', lookupKey uid (add_message maxB uid none none msg s).1.batches
        = some b' ∧
      b'.messages = (match lookupKey uid s.batches with
                     | some b => b.messages
                     | none => []) ∧
      b'.images = (match lookupKey uid s.batches with
                   | some b => b.images
                   | none => []) ∧
      b'.timer = some s.nextTimer) ∧
    (lookupKey uid s.batches = none →
      (process_batch uid (add_message maxB uid none none msg s).1).2
        = none) := by
  rcases hlk : lookupKey uid s.batches with _ | b
  · simp only [hlk] at hroom
    have hle : ¬ (maxB ≤ 0) := Nat.not_le.mpr hroom
    refine ⟨?_,
      ⟨{ first_message := msg,
         owner_user_id := msg.from_user.map (fun u => u.id),
         timer := some s.nextTimer },
        ?_, ?_, ?_, ?_⟩, ?_⟩
    · simp [add_message, optTruthy, hlk, hle]
    · simp [add_message, optTruthy, hlk, hle, schedule_processing, lookupKey_setKey,
        cancelBatchTimer_none]
    · simp [hlk]
    · simp [hlk]
    · rfl
    · intro _
      simp [add_message, optTruthy, hlk, hle, schedule_processing, lookupKey_setKey,
        cancelBatchTimer_none, process_batch]
  · simp only [hlk] at hroom
    have hle : ¬ (maxB ≤ b.messages.length + b.images.length) :=
      Nat.not_le.mpr hroom
    refine ⟨?_, ⟨{ b with timer := some s.nextTimer }, ?_, ?_, ?_, ?_⟩, ?_⟩
    · simp [add_message, optTruthy, hlk, hle]
    · simp [add_message, optTruthy, hlk, hle, schedule_processing, lookupKey_setKey,
        cancelBatchTimer_none, cancelBatchTimer_batches,
        cancelBatchTimer_nextTimer]
    · simp [hlk]
    · simp [hlk]
    · rfl
    · intro h
      simp [hlk] at h

/-- Witness for the amended C8 on a concrete one-batch state. -/
theorem empty_fragment_content_noop_w :
    (add_message 30 7 none none {}
        { batches := [(7, { messages := ["U: hi"], timer := some 0 })],
          live := [(0, 7)], nextTimer := 1 }).2 = none ∧
    (∃ b', lookupKey 7 (add_message 30 7 none none {}
          { batches := [(7, { messages := ["U: hi"], timer := some 0 })],
            live := [(0, 7)], nextTimer := 1 }).1.batches = some b' ∧
      b'.messages = (match lookupKey 7
          (BatcherState.batches
            { batches := [(7, { messages := ["U: hi"], timer := some 0 })],
              live := [(0, 7)], nextTimer := 1 }) with
        | some b => b.messages
        | none => []) ∧
      b'.images = (match lookupKey 7
          (BatcherState.batches
            { batches := [(7, { messages := ["U: hi"], timer := some 0 })],
              live := [(0, 7)], nextTimer := 1 }) with
        | some b => b.images
        | none => []) ∧
      b'.timer = some 1) ∧
    (lookupKey 7
        (BatcherState.batches
          { batches := [(7, { messages := ["U: hi"], timer := some 0 })],
            live := [(0, 7)], nextTimer := 1 }) = none →
      (process_batch 7 (add_message 30 7 none none {}
          { batches := [(7, { messages := ["U: hi"], timer := some 0 })],
            live := [(0, 7)], nextTimer := 1 }).1).2 = none) :=
  empty_fragment_content_noop 30 7 {}
    { batches := [(7, { messages := ["U: hi"], timer := some 0 })],
      live := [(0, 7)], nextTimer := 1 } (by decide)

/-- Helper: running a concatenated trace runs the pieces in sequence and
concatenates the handoffs. -/
theorem runEvents_append (maxB : Nat) (s : BatcherState)
    (es1 es2 : List BEvent) :
    runEvents maxB s (es1 ++ es2)
      = ((runEvents maxB (runEvents maxB s es1).1 es2).1,
         (runEvents maxB s es1).2
           ++ (runEvents maxB (runEvents maxB s es1).1 es2).2) := by
  induction es1 generalizing s with
  | nil => simp [runEvents]
  | cons e es ih => simp [runEvents, ih]

/-- Helper: a first text fragment for a user with no batch creates the
batch, tags the line, and arms timer 0 (when the size ceiling is not
hit). -/
theorem add_message_first (maxB : Nat) (uid : Int) (t : String) (m : Msg)
    (ht : t ≠ "") (hmax : 1 < maxB) :
    add_message maxB uid (some t) none m {}
      = (debounceState uid
           [fragmentLine (m.from_user.map (fun u => u.id)) t m] 0 m
           (m.from_user.map (fun u => u.id)), none) := by
  have hle : ¬ (maxB ≤ 1) := Nat.not_le.mpr hmax
  simp [add_message, optTruthy, ht, lookupKey, setKey, removeKey,
    schedule_processing, cancelBatchTimer, cancelTimer, debounceState, hle]

/-- Helper: a further text fragment within the debounce window cancels
the live timer, appends its tagged line, and re-arms a fresh timer (when
the size ceiling is not hit). -/
theorem add_message_debounce_step (maxB : Nat) (uid : Int) (t : String)
    (m m0 : Msg) (ow : Option Int) (L : List String) (tid : Nat)
    (ht : t ≠ "") (hlen : L.length + 1 < maxB) :
    add_message maxB uid (some t) none m (debounceState uid L tid m0 ow)
      = (debounceState uid (L ++ [fragmentLine ow t m]) (tid + 1) m0 ow,
         none) := by
  have hle : ¬ (maxB ≤ L.length + 1) := Nat.not_le.mpr hlen
  simp [add_message, optTruthy, ht, lookupKey, setKey, removeKey,
    schedule_processing, cancelBatchTimer, cancelTimer, debounceState, hle]

/-- Helper: a text fragment that brings the accumulated line count to the
size ceiling flushes synchronously, leaving no batch, timer or task. -/
theorem add_message_debounce_flush (maxB : Nat) (uid : Int) (t : String)
    (m m0 : Msg) (ow : Option Int) (L : List String) (tid : Nat)
    (ht : t ≠ "") (hlen : L.length + 1 = maxB) :
    add_message maxB uid (some t) none m (debounceState uid L tid m0 ow)
      = ({ batches := [], live := [], tasks := [], nextTimer := tid + 1 },
         some { messages := L ++ [fragmentLine ow t m], images := [],
                timer := none, first_message_time := 0, first_message := m0,
                owner_user_id := ow }) := by
  have hle : maxB ≤ L.length + 1 := Nat.le_of_eq hlen.symm
  simp [add_message, optTruthy, ht, lookupKey, setKey, removeKey,
    process_batch, cancelBatchTimer, cancelTimer, debounceState, hle]

/-- Helper: the live timer of a waiting debounce batch fires and the
scheduled task flushes it, handing off exactly its accumulated lines. -/
theorem runEvents_fire_run (maxB : Nat) (uid : Int) (L : List String)
    (tid : Nat) (m0 : Msg) (ow : Option Int) (hL : L ≠ []) :
    runEvents maxB (debounceState uid L tid m0 ow)
        [BEvent.timerFire tid, BEvent.runTask]
      = ({ batches := [], live := [], tasks := [], nextTimer := tid + 1 },
         [{ messages := L, images := [], timer := none,
            first_message_time := 0, first_message := m0,
            owner_user_id := ow }]) := by
  simp [runEvents, stepEvent, findTimer, process_batch, lookupKey,
    removeKey, cancelBatchTimer, cancelTimer, debounceState, hL]

/-- Helper: on a drained batcher state a stale timer fire and a task run
are no-ops. -/
theorem runEvents_fire_run_empty (maxB : Nat) (t nt : Nat) :
    runEvents maxB { batches := [], live := [], tasks := [], nextTimer := nt }
        [BEvent.timerFire t, BEvent.runTask]
      = ({ batches := [], live := [], tasks := [], nextTimer := nt }, []) := by
  simp [runEvents, stepEvent, findTimer]

/-- Helper: one-step unfolding of a trace run. -/
theorem runEvents_cons (maxB : Nat) (s : BatcherState) (e : BEvent)
    (es : List BEvent) :
    runEvents maxB s (e :: es)
      = ((runEvents maxB (stepEvent maxB s e).1 es).1,
         (stepEvent maxB s e).2.toList
           ++ (runEvents maxB (stepEvent maxB s e).1 es).2) := rfl

/-- Helper: a run of further fragments, all inside the debounce window
and jointly below the size ceiling, only accumulates lines and re-arms
the timer once per fragment; no handoff happens. -/
theorem runEvents_debounce_accum (maxB : Nat) (uid : Int) (m0 : Msg)
    (ow : Option Int) (rs : List (String × Msg)) (L : List String)
    (tid : Nat)
    (hts : ∀ f ∈ rs, f.1 ≠ "") (hlen : L.length + rs.length < maxB) :
    runEvents maxB (debounceState uid L tid m0 ow)
        (rs.map (fun f => BEvent.submit uid (some f.1) none f.2))
      = (debounceState uid
           (L ++ rs.map (fun f => fragmentLine ow f.1 f.2))
           (tid + rs.length) m0 ow, []) := by
  induction rs generalizing L tid with
  | nil => simp [runEvents]
  | cons r rs' ih =>
    have hr : r.1 ≠ "" := hts r (List.mem_cons_self r rs')
    have hstep : L.length + 1 < maxB := by
      simp only [List.length_cons] at hlen
      omega
    simp only [List.map_cons]
    rw [runEvents_cons]
    simp only [stepEvent]
    rw [add_message_debounce_step maxB uid r.1 r.2 m0 ow L tid hr hstep]
    dsimp only
    rw [ih (L ++ [fragmentLine ow r.1 r.2]) (tid + 1)
      (fun f hf => hts f (List.mem_cons_of_mem r hf))
      (by
        simp only [List.length_append, List.length_cons, List.length_nil]
          at hlen ⊢
        omega)]
    dsimp only
    rw [List.append_assoc, List.singleton_append]
    have harith : tid + 1 + rs'.length = tid + (r :: rs').length := by
      simp only [List.length_cons]
      omega
    rw [harith]
    rfl

/-- Helper: a run of further fragments whose joint count reaches the size
ceiling exactly at its last fragment produces exactly one handoff, from
the size-triggered synchronous flush, carrying every line. -/
theorem runEvents_debounce_to_max (maxB : Nat) (uid : Int) (m0 : Msg)
    (ow : Option Int) (rs : List (String × Msg)) (L : List String)
    (tid : Nat)
    (hts : ∀ f ∈ rs, f.1 ≠ "") (hne : rs ≠ [])
    (hlen : L.length + rs.length = maxB) :
    runEvents maxB (debounceState uid L tid m0 ow)
        (rs.map (fun f => BEvent.submit uid (some f.1) none f.2))
      = ({ batches := [], live := [], tasks := [],
           nextTimer := tid + rs.length },
         [{ messages := L ++ rs.map (fun f => fragmentLine ow f.1 f.2),
            images := [], timer := none, first_message_time := 0,
            first_message := m0, owner_user_id := ow }]) := by
  induction rs generalizing L tid with
  | nil => exact absurd rfl hne
  | cons r rs' ih =>
    have hr : r.1 ≠ "" := hts r (List.mem_cons_self r rs')
    cases rs' with
    | nil =>
      have hfl : L.length + 1 = maxB := by
        simp only [List.length_cons, List.length_nil] at hlen
        omega
      simp only [List.map_cons, List.map_nil]
      rw [runEvents_cons]
      simp only [stepEvent]
      rw [add_message_debounce_flush maxB uid r.1 r.2 m0 ow L tid hr hfl]
      simp [runEvents]
    | cons r2 rs'' =>
      have hstep : L.length + 1 < maxB := by
        simp only [List.length_cons] at hlen
        omega
      simp only [List.map_cons]
      rw [runEvents_cons]
      simp only [stepEvent]
      rw [add_message_debounce_step maxB uid r.1 r.2 m0 ow L tid hr hstep]
      dsimp only
      rw [show (BEvent.submit uid (some r2.1) none r2.2
            :: List.map (fun f => BEvent.submit uid (some f.1) none f.2) rs'')
          = List.map (fun f => BEvent.submit uid (some f.1) none f.2)
              (r2 :: rs'') from rfl]
      rw [ih (L ++ [fragmentLine ow r.1 r.2]) (tid + 1)
        (fun f hf => hts f (List.mem_cons_of_mem r hf))
        (List.cons_ne_nil r2 rs'')
        (by
          simp only [List.length_append, List.length_cons, List.length_nil]
            at hlen ⊢
          omega)]
      dsimp only
      rw [List.append_assoc, List.singleton_append]
      have harith : tid + 1 + (r2 :: rs'').length
          = tid + (r :: r2 :: rs'').length := by
        simp only [List.length_cons]
        omega
      rw [harith]
      rfl

/-- C3 amended: for two or more non-empty text fragments from one user,
each arriving within the debounce window of the previous one (so no timer
fires between submissions), with their total count at most the configured
maximum batch size, exactly one flush occurs — by timer expiry below the
ceiling, or synchronously at it — and its batch carries every fragment's
formatted line in submission order, combined with newlines. -/
theorem debounce_single_flush (maxB : Nat) (uid : Int)
    (f0 : String × Msg) (rs : List (String × Msg))
    (hne : rs ≠ [])
    (hmax : (f0 :: rs).length ≤ maxB)
    (hts : ∀ f ∈ f0 :: rs, f.1 ≠ "") :
    ((runEvents maxB {}
        ((f0 :: rs).map (fun f => BEvent.submit uid (some f.1) none f.2)
          ++ [BEvent.timerFire ((f0 :: rs).length - 1),
              BEvent.runTask])).2).map MessageBatch.messages
      = [(f0 :: rs).map
           (fun f => fragmentLine (f0.2.from_user.map (fun u => u.id))
             f.1 f.2)] ∧
    ((runEvents maxB {}
        ((f0 :: rs).map (fun f => BEvent.submit uid (some f.1) none f.2)
          ++ [BEvent.timerFire ((f0 :: rs).length - 1),
              BEvent.runTask])).2).map combined_text
      = [some (String.intercalate "\n"
          ((f0 :: rs).map
            (fun f => fragmentLine (f0.2.from_user.map (fun u => u.id))
              f.1 f.2)))] := by
  have hpos : 0 < rs.length := List.length_pos.mpr hne
  have hmax2 : 1 < maxB := by
    simp only [List.length_cons] at hmax
    omega
  have h0 : f0.1 ≠ "" := hts f0 (List.mem_cons_self f0 rs)
  have htail : ∀ f ∈ rs, f.1 ≠ "" :=
    fun f hf => hts f (List.mem_cons_of_mem f0 hf)
  have hid : (f0 :: rs).length - 1 = rs.length := by
    simp only [List.length_cons]
    omega
  rw [runEvents_append]
  simp only [List.map_cons]
  rw [runEvents_cons]
  simp only [stepEvent]
  rw [add_message_first maxB uid f0.1 f0.2 h0 hmax2]
  dsimp only
  rcases lt_or_eq_of_le hmax with hlt | heq
  · have hlenA :
        [fragmentLine (f0.2.from_user.map (fun u => u.id)) f0.1 f0.2].length
          + rs.length < maxB := by
      simp only [List.length_cons] at hlt
      simp only [List.length_cons, List.length_nil]
      omega
    rw [runEvents_debounce_accum maxB uid f0.2
      (f0.2.from_user.map (fun u => u.id)) rs
      [fragmentLine (f0.2.from_user.map (fun u => u.id)) f0.1 f0.2] 0
      htail hlenA]
    dsimp only
    rw [hid, Nat.zero_add]
    rw [runEvents_fire_run maxB uid
      ([fragmentLine (f0.2.from_user.map (fun u => u.id)) f0.1 f0.2]
        ++ rs.map (fun f =>
             fragmentLine (f0.2.from_user.map (fun u => u.id)) f.1 f.2))
      rs.length f0.2 (f0.2.from_user.map (fun u => u.id)) (by simp)]
    dsimp only
    constructor
    · simp
    · simp [combined_text]
  · have hlenB :
        [fragmentLine (f0.2.from_user.map (fun u => u.id)) f0.1 f0.2].length
          + rs.length = maxB := by
      simp only [List.length_cons] at heq
      simp only [List.length_cons, List.length_nil]
      omega
    rw [runEvents_debounce_to_max maxB uid f0.2
      (f0.2.from_user.map (fun u => u.id)) rs
      [fragmentLine (f0.2.from_user.map (fun u => u.id)) f0.1 f0.2] 0
      htail hne hlenB]
    dsimp only
    rw [hid]
    rw [runEvents_fire_run_empty]
    dsimp only
    constructor
    · simp
    · simp [combined_text]

/-- C3 counterexample: with max batch size 2, three text fragments from
one user — each submitted within the debounce window of the previous one
(no timer fires between submissions) — produce two handoffs: the second
fragment triggers a synchronous size flush and the third starts a new
batch that the final timer flushes.  So "exactly one flush for every
such sequence" fails once the sequence exceeds the size ceiling. -/
theorem debounce_two_flushes_cex :
    ((runEvents 2 {}
        [BEvent.submit 9 (some "a") none { from_user := some { id := 9 } },
         BEvent.submit 9 (some "b") none { from_user := some { id := 9 } },
         BEvent.submit 9 (some "c") none { from_user := some { id := 9 } },
         BEvent.timerFire 1, BEvent.runTask]).2).length = 2 := by
  decide

/-- Witness for the amended C3, reproducing the spec's own scenario: two
forwarded fragments within the debounce window coalesce into a single
flush whose combined text is `"A: see you\nB: tomorrow at 15:00"`. -/
theorem debounce_single_flush_w :
    ((runEvents 30 {}
        ((("see you", ({ from_user := some { id := 99 }, forward_from := some { id := 1, first_name := some "A" } } : Msg))
          :: [("tomorrow at 15:00", ({ from_user := some { id := 99 }, forward_from := some { id := 2, first_name := some "B" } } : Msg))]).map
            (fun f => BEvent.submit 99 (some f.1) none f.2)
          ++ [BEvent.timerFire
                ((("see you", ({ from_user := some { id := 99 }, forward_from := some { id := 1, first_name := some "A" } } : Msg))
                  :: [("tomorrow at 15:00", ({ from_user := some { id := 99 }, forward_from := some { id := 2, first_name := some "B" } } : Msg))]).length - 1),
              BEvent.runTask])).2).map combined_text
      = [some "A: see you\nB: tomorrow at 15:00"] := by
  have h := debounce_single_flush 30 99
    ("see you", ({ from_user := some { id := 99 }, forward_from := some { id := 1, first_name := some "A" } } : Msg))
    [("tomorrow at 15:00", ({ from_user := some { id := 99 }, forward_from := some { id := 2, first_name := some "B" } } : Msg))]
    (by decide) (by decide) (by decide)
  rw [h.2]
  decide
